import Mathlib

/-!
Verification of the Gateway Control Plane specification against the
`prime` repository.

The client side is embedded from `frontend/src/services/ws.js`
(class `GatewayWS`) and `frontend/src/services/wsContext.jsx`
(`WsProvider`).  The server-side components (auth gate, envelope codec,
binding resolver, idempotency store, node execution policy) have no
implementation in the repository — only documentation and UI callers —
so they are modelled from the specification text, each marked
`Modelled from the spec:` in its doc comment.
-/

namespace Gateway

/-- Client metadata sent in the `connect` frame (`ws.js` line 100). -/
structure ClientInfo where
  name : String
  version : String
deriving DecidableEq, Repr

/-- The five wire frame kinds of the protocol (spec §3 Envelope, §6 wire
format).  `error.id` is optional, as on the wire. -/
inductive Frame where
  | challenge (nonce : String)
  | connect (token : String) (nonce : String) (client : ClientInfo)
  | req (id : String) (method : String) (params : String) (idem : Option String)
  | res (id : String) (result : String)
  | error (id : Option String) (code : String) (message : String)
  | event (name : String) (payload : String) (ts : Nat)
deriving DecidableEq, Repr

/-- Observable actions of the client, in the order the code performs them:
socket writes and closes, status callbacks, timer arming/clearing,
promise settlement, reconnect scheduling and event-handler invocation. -/
inductive Effect where
  | sendFrame (f : Frame)
  | closeSocket
  | setStatus (s : String)
  | armTimeout (tid : Nat) (delayMs : Nat)
  | clearTimeout (tid : Nat)
  | resolveReq (id : String) (result : String)
  | rejectReq (id : String) (reason : String)
  | rejectNew (reason : String)
  | scheduleReconnect (delayMs : Nat)
  | emitEvent (f : Frame)
  | emitGatewayError (code : String) (message : String)
deriving DecidableEq, Repr

/-- `const RECONNECT_BASE_MS = 1000` (`ws.js` line 1). -/
def RECONNECT_BASE_MS : Nat := 1000

/-- `const RECONNECT_MAX_MS = 30000` (`ws.js` line 2). -/
def RECONNECT_MAX_MS : Nat := 30000

/-- `const RECONNECT_FACTOR = 2` (`ws.js` line 3). -/
def RECONNECT_FACTOR : Nat := 2

/-- State of a `GatewayWS` instance: the pending map (insertion-ordered
`id ↦ timeoutId`, as a JS `Map`), the reconnect delay, the request
counter, the `_stopped` flag, the status string, whether the underlying
socket exists and is `OPEN`, and the JWT from local storage. -/
structure GatewayWS where
  pending : List (String × Nat)
  reconnectDelay : Nat
  reqCounter : Nat
  stopped : Bool
  status : String
  wsOpen : Bool
  token : Option String
deriving DecidableEq, Repr

/-- `this._pending.get(id)` on the insertion-ordered map. -/
def lookupPending : List (String × Nat) → String → Option Nat
  | [], _ => none
  | e :: rest, id => if e.1 = id then some e.2 else lookupPending rest id

/-- `this._pending.delete(id)`: removes the (unique) entry keyed `id`;
on a list without duplicate keys this is removal of the first match. -/
def erasePending : List (String × Nat) → String → List (String × Nat)
  | [], _ => []
  | e :: rest, id => if e.1 = id then rest else e :: erasePending rest id

/-- Request id generation: `req-${++this._reqCounter}-${Date.now()}`
(`ws.js` line 36). -/
def nextReqId (counter now : Nat) : String :=
  "req-" ++ toString (counter + 1) ++ "-" ++ toString now

/-- `GatewayWS._handleMessage` (`ws.js` lines 87-143): challenge reply,
`presence.connected` handling, `res`/`error` settlement.  Frames that
match no branch (a `connect` or `req` from the server) fall through
with no effect, exactly as in the source. -/
def handleMessage (s : GatewayWS) (msg : Frame) : GatewayWS × List Effect :=
  match msg with
  | .challenge nonce =>
    match s.token with
    | none => (s, [.closeSocket])
    | some tok =>
      (s, [.sendFrame (.connect tok nonce ⟨"multibot-admin", "0.1.0"⟩)])
  | .event name _ _ =>
    if name = "presence.connected" then
      ({ s with reconnectDelay := RECONNECT_BASE_MS, status := "connected" },
       [.setStatus "connected", .emitEvent msg])
    else
      (s, [.emitEvent msg])
  | .res id result =>
    match lookupPending s.pending id with
    | some tid =>
      ({ s with pending := erasePending s.pending id },
       [.clearTimeout tid, .resolveReq id result])
    | none => (s, [])
  | .error mid code message =>
    match mid.bind (fun i => (lookupPending s.pending i).map (fun t => (i, t))) with
    | some (i, tid) =>
      ({ s with pending := erasePending s.pending i },
       [.clearTimeout tid, .rejectReq i ("[" ++ code ++ "] " ++ message)])
    | none =>
      if code = "auth_failed" ∨ code = "invalid_nonce" then
        ({ s with status := "auth_failed", stopped := true },
         [.setStatus "auth_failed", .closeSocket])
      else
        (s, [.emitGatewayError code message])
  | _ => (s, [])

/-- `ws.onmessage` (`ws.js` lines 51-59): `JSON.parse` failure is caught
and the handler returns; a parsed frame goes to `_handleMessage`. -/
def onMessageRaw (s : GatewayWS) (parsed : Option Frame) : GatewayWS × List Effect :=
  match parsed with
  | none => (s, [])
  | some msg => handleMessage s msg

/-- `GatewayWS.request` (`ws.js` lines 153-174).  `tid` stands for the
timer handle `setTimeout` returns, `now` for `Date.now()`.  On a socket
that is not `OPEN` the promise is rejected before any id is drawn and
nothing is sent. -/
def request (s : GatewayWS) (method params : String) (idem : Option String)
    (timeoutMs? : Option Nat) (tid now : Nat) : GatewayWS × List Effect :=
  if s.wsOpen = false then
    (s, [.rejectNew "WebSocket not connected"])
  else
    let id := nextReqId s.reqCounter now
    let timeoutMs := timeoutMs?.getD 15000
    ({ s with reqCounter := s.reqCounter + 1,
              pending := s.pending ++ [(id, tid)] },
     [.armTimeout tid timeoutMs,
      .sendFrame (.req id method params idem)])

/-- The `setTimeout` callback of `request` (`ws.js` lines 161-164):
delete from the pending map and reject. -/
def fireTimeout (s : GatewayWS) (id : String) (method : String)
    (timeoutMs : Nat) : GatewayWS × List Effect :=
  ({ s with pending := erasePending s.pending id },
   [.rejectReq id
      ("Request " ++ method ++ " timed out after " ++ toString timeoutMs ++ "ms")])

/-- The per-entry work of `ws.onclose`: `clearTimeout(timeoutId)` then
`reject(new Error("WebSocket disconnected"))`, in map order. -/
def closeRejects : List (String × Nat) → List Effect
  | [] => []
  | e :: rest =>
    Effect.clearTimeout e.2 :: Effect.rejectReq e.1 "WebSocket disconnected"
      :: closeRejects rest

/-- `ws.onclose` (`ws.js` lines 65-84): null the socket, reject every
in-flight request and clear its timer, empty the pending map, then
either schedule a reconnect after the current delay and double it
(capped), or report `disconnected` when stopped. -/
def onClose (s : GatewayWS) : GatewayWS × List Effect :=
  let rejects := closeRejects s.pending
  if s.stopped = false then
    ({ s with wsOpen := false, pending := [], status := "reconnecting",
              reconnectDelay :=
                min (s.reconnectDelay * RECONNECT_FACTOR) RECONNECT_MAX_MS },
     rejects ++ [.setStatus "reconnecting", .scheduleReconnect s.reconnectDelay])
  else
    ({ s with wsOpen := false, pending := [], status := "disconnected" },
     rejects ++ [.setStatus "disconnected"])

/-- The transport reaching `readyState OPEN`.  The source installs no
`onopen` handler, so no client code runs at that moment: only the
socket readiness changes. -/
def transportOpen (s : GatewayWS) : GatewayWS :=
  { s with wsOpen := true }

/-- Iterated connection loss: `k` consecutive `onclose` firings. -/
def iterClose : Nat → GatewayWS → GatewayWS
  | 0, s => s
  | n + 1, s => iterClose n (onClose s).1

end Gateway

namespace WsContext

/-- The `offEvent` handler of `WsProvider` (`wsContext.jsx` lines 16-18):
`setRecentEvents((prev) => [evt, ...prev].slice(0, 100))`. -/
def recentEventsNext {α : Type} (evt : α) (prev : List α) : List α :=
  (evt :: prev).take 100

end WsContext

namespace Server

/-- Connection lifecycle states (spec §3 Connection). -/
inductive ConnLifecycle where
  | connecting
  | challenged
  | authenticated
  | closing
  | closed
deriving DecidableEq, Repr

/-- An action the server takes in response to an inbound frame. -/
inductive ServerAction where
  | reply (f : Gateway.Frame)
  | dispatch (id : String) (method : String) (params : String)
  | closeConn
deriving DecidableEq, Repr

/-- Modelled from the spec: the server-side authenticate-gate of §4.1 —
no `req` is processed for a non-authenticated connection; it must be
rejected with an `error` frame of code `unauthenticated` without
invoking the dispatcher.  No server implementation exists in the
repository. -/
def gateReq (st : ConnLifecycle) (id method params : String) : List ServerAction :=
  if st = ConnLifecycle.authenticated then
    [.dispatch id method params]
  else
    [.reply (.error (some id) "unauthenticated" "connection not authenticated")]

/-- A raw decoded JSON object before validation: each wire field of §6,
present or absent.  `params`, `result` and `payload` stand for the
serialized JSON value. -/
structure RawMsg where
  type : Option String
  nonce : Option String
  token : Option String
  clientName : Option String
  clientVersion : Option String
  id : Option String
  method : Option String
  params : Option String
  idempotency_key : Option String
  result : Option String
  code : Option String
  message : Option String
  eventName : Option String
  payload : Option String
  ts : Option Nat
deriving DecidableEq, Repr

/-- Modelled from the spec: the Envelope Codec validation of §4.1
against the §6 wire format — every required field of the frame kind
must be present; no server implementation exists in the repository.
(§6 defines no version field, so version checking has no wire shape to
act on and is not modelled.) -/
def decode (r : RawMsg) : Option Gateway.Frame :=
  match r.type with
  | some "connect.challenge" =>
    r.nonce.map Gateway.Frame.challenge
  | some "connect" =>
    match r.token, r.nonce, r.clientName, r.clientVersion with
    | some t, some n, some cn, some cv => some (.connect t n ⟨cn, cv⟩)
    | _, _, _, _ => none
  | some "req" =>
    match r.id, r.method, r.params with
    | some i, some m, some p => some (.req i m p r.idempotency_key)
    | _, _, _ => none
  | some "res" =>
    match r.id, r.result with
    | some i, some res => some (.res i res)
    | _, _ => none
  | some "error" =>
    match r.code, r.message with
    | some c, some m => some (.error r.id c m)
    | _, _ => none
  | some "event" =>
    match r.eventName, r.ts with
    | some e, some t => some (.event e (r.payload.getD "null") t)
    | _, _ => none
  | _ => none

/-- Modelled from the spec: "Decoding rejects frames missing required
fields ... producing a typed `error` frame rather than throwing across
the transport boundary" (§4.1). -/
def decodeOrError (r : RawMsg) : Except Gateway.Frame Gateway.Frame :=
  match decode r with
  | some f => .ok f
  | none => .error (.error none "decode_error" "malformed frame")

end Server

namespace Resolver

/-- A routing binding (spec §3): target agent, optional bot, channel,
optional account and peer, priority, active flag, creation time. -/
structure Binding where
  agent_id : String
  bot_id : Option String
  channel : String
  account_id : Option String
  peer : Option String
  priority : Int
  active : Bool
  created_at : Nat
deriving DecidableEq, Repr

/-- A resolution query `(channel, account_id?, peer?, bot_id?)`. -/
structure Query where
  channel : String
  account_id : Option String
  peer : Option String
  bot_id : Option String
deriving DecidableEq, Repr

/-- Modelled from the spec: a binding matches iff it is active, its
channel equals the input channel, and every field it specifies
(non-null) equals the input value; null fields are wildcards (§4.2). -/
def matchesB (q : Query) (b : Binding) : Bool :=
  b.active
    && decide (b.channel = q.channel)
    && (match b.account_id with
        | none => true
        | some a => decide (q.account_id = some a))
    && (match b.peer with
        | none => true
        | some p => decide (q.peer = some p))
    && (match b.bot_id with
        | none => true
        | some i => decide (q.bot_id = some i))

/-- Modelled from the spec: the specificity score of a match — +4 for a
specified (hence matched) peer, +2 for account_id, +1 for bot_id;
wildcards contribute 0 (§4.2). -/
def score (b : Binding) : Nat :=
  (if b.peer.isSome then 4 else 0)
    + (if b.account_id.isSome then 2 else 0)
    + (if b.bot_id.isSome then 1 else 0)

/-- Modelled from the spec: `a` is strictly preferred over `b` — higher
score wins, ties broken by higher priority, then earlier `created_at`
(§4.2). -/
def beats (a b : Binding) : Bool :=
  decide (score a > score b
    ∨ (score a = score b
        ∧ (a.priority > b.priority
            ∨ (a.priority = b.priority ∧ a.created_at < b.created_at))))

/-- Fold over candidates keeping the preferred binding; on a full tie
the earlier list element is kept, so the result is stable. -/
def pick : Option Binding → List Binding → Option Binding
  | acc, [] => acc
  | none, b :: rest => pick (some b) rest
  | some a, b :: rest => pick (some (if beats b a then b else a)) rest

/-- Modelled from the spec: `resolve(candidates, query)` — a pure
function of the binding set that selects the single best-matching
active binding, or none (§4.2); no server implementation exists in the
repository. -/
def resolve (cs : List Binding) (q : Query) : Option Binding :=
  pick none (cs.filter (matchesB q))

end Resolver

namespace Idem

/-- Idempotency record status (spec §3, `operations.md` table
`idempotency_keys`).  `completed` stores the response to replay;
`failed` stores the fault (the spec leaves replay of faults
unspecified; the model replays the stored outcome either way). -/
inductive IdemStatus where
  | in_progress
  | completed (result : String)
  | failed (fault : String)
deriving DecidableEq, Repr

/-- An idempotency record (spec §3 IdempotencyRecord; identity and
expiry are not needed by the claims and are omitted). -/
structure IdemRecord where
  key : String
  method : String
  request_hash : String
  status : IdemStatus
deriving DecidableEq, Repr

/-- Outcome of `begin` (spec §4.3). -/
inductive BeginResult where
  | Proceed
  | Replay (result : String)
  | Conflict
  | InProgress
deriving DecidableEq, Repr

/-- Lookup of the unique record with a given key. -/
def findRecord : List IdemRecord → String → Option IdemRecord
  | [], _ => none
  | r :: rest, key => if r.key = key then some r else findRecord rest key

/-- Modelled from the spec: the request-content hash over method and
params (`operations.md` `request_hash`). -/
def requestHash (method params : String) : String :=
  method ++ "|" ++ params

/-- Modelled from the spec: `begin(key, method, request_hash)` of §4.3 —
`Proceed` (inserting an `in_progress` record) only if no record exists;
`Conflict` on a different hash; `Replay` of the stored outcome on a
finished record; `InProgress` while a concurrent holder runs; no server
implementation exists in the repository. -/
def begin (store : List IdemRecord) (key method hash : String) :
    BeginResult × List IdemRecord :=
  match findRecord store key with
  | none =>
    (.Proceed, store ++ [⟨key, method, hash, .in_progress⟩])
  | some r =>
    if r.request_hash ≠ hash then
      (.Conflict, store)
    else
      match r.status with
      | .in_progress => (.InProgress, store)
      | .completed res => (.Replay res, store)
      | .failed f => (.Replay f, store)

/-- Modelled from the spec: `complete(key, result)` of §4.3 — persist
the outcome on the record holding the key. -/
def complete (store : List IdemRecord) (key result : String) : List IdemRecord :=
  store.map (fun r =>
    if r.key = key then { r with status := .completed result } else r)

/-- Reply sent back to the caller of an idempotent method. -/
inductive IdemResponse where
  | ok (result : String)
  | conflict
  | retryLater
deriving DecidableEq, Repr

/-- Modelled from the spec: the dispatch path of one idempotent request
(§4.3) — `begin`, then on `Proceed` run the handler once and `complete`;
on `Replay` return the stored result without the handler; on `Conflict`
a client error; on `InProgress` a retryable error.  The final `Nat` is
the number of handler executions this call performed. -/
def processRequest (store : List IdemRecord) (key method params : String)
    (handler : String → String → String) :
    IdemResponse × List IdemRecord × Nat :=
  let h := requestHash method params
  match begin store key method h with
  | (.Proceed, store1) =>
    let res := handler method params
    (.ok res, complete store1 key res, 1)
  | (.Replay r, store1) => (.ok r, store1, 0)
  | (.Conflict, store1) => (.conflict, store1, 0)
  | (.InProgress, store1) => (.retryLater, store1, 0)

end Idem

namespace NodeExec

/-- The four risk levels (spec §4.4, `NODE_EXECUTION.md` Risk Levels). -/
inductive RiskLevel where
  | critical
  | high
  | medium
  | low
deriving DecidableEq, Repr

/-- Capability lookup in the declared capability set. -/
def hasCap (caps : List String) (c : String) : Bool :=
  caps.contains c

/-- Execution status after classification (spec §3
NodeExecutionRequest lifecycle). -/
inductive ExecStatus where
  | pending_approval
  | approved
deriving DecidableEq, Repr

/-- Modelled from the spec: the approval policy of §4.4 — `critical` and
`high` require approval unless the node declares the matching
capability (`exec.critical`/`exec.high`) and either `trusted` or
`auto_approve`; `medium` is configurable; `low` never requires
approval; a per-request auto-approval rule that matches the command
downgrades to auto-approved, but only for nodes holding `trusted`.
`autoRuleMatched` abstracts "some supplied regex pattern matches the
command"; no server implementation exists in the repository. -/
def requiresApproval (risk : RiskLevel) (caps : List String)
    (mediumRequiresApproval : Bool) (autoRuleMatched : Bool) : Bool :=
  if autoRuleMatched && hasCap caps "trusted" then
    false
  else
    match risk with
    | .critical =>
      !(hasCap caps "exec.critical"
          && (hasCap caps "trusted" || hasCap caps "auto_approve"))
    | .high =>
      !(hasCap caps "exec.high"
          && (hasCap caps "trusted" || hasCap caps "auto_approve"))
    | .medium => mediumRequiresApproval
    | .low => false

/-- Modelled from the spec: the classification outcome — a request
needing approval enters `pending_approval`, otherwise it is approved
(spec §4.4, §3 lifecycle). -/
def classifyOutcome (risk : RiskLevel) (caps : List String)
    (mediumRequiresApproval : Bool) (autoRuleMatched : Bool) : ExecStatus :=
  if requiresApproval risk caps mediumRequiresApproval autoRuleMatched then
    .pending_approval
  else
    .approved

end NodeExec

/-! ## Helper lemmas about the pending map -/

theorem gw_lookupPending_none_iff (l : List (String × Nat)) (id : String) :
    Gateway.lookupPending l id = none ↔ ∀ e ∈ l, e.1 ≠ id := by
  induction l with
  | nil => simp [Gateway.lookupPending]
  | cons e rest ih =>
    by_cases h : e.1 = id
    · simp [Gateway.lookupPending, h]
    · simp [Gateway.lookupPending, h, ih]

theorem gw_mem_erasePending_of_ne (l : List (String × Nat)) (id : String)
    (e : String × Nat) (he : e ∈ l) (hne : e.1 ≠ id) :
    e ∈ Gateway.erasePending l id := by
  induction l with
  | nil => simp at he
  | cons x rest ih =>
    rcases List.mem_cons.mp he with h | h
    · subst h
      simp [Gateway.erasePending, hne]
    · by_cases hx : x.1 = id
      · simpa [Gateway.erasePending, hx] using h
      · simp [Gateway.erasePending, hx]
        exact Or.inr (ih h)

theorem gw_erasePending_subset (l : List (String × Nat)) (id : String)
    (e : String × Nat) (he : e ∈ Gateway.erasePending l id) : e ∈ l := by
  induction l with
  | nil => simp [Gateway.erasePending] at he
  | cons x rest ih =>
    by_cases hx : x.1 = id
    · simp [Gateway.erasePending, hx] at he
      exact List.mem_cons_of_mem _ he
    · simp [Gateway.erasePending, hx] at he
      rcases he with h | h
      · exact h ▸ List.mem_cons_self _ _
      · exact List.mem_cons_of_mem _ (ih h)

theorem gw_erase_keeps_no_key (l : List (String × Nat)) (id : String)
    (hnd : (l.map Prod.fst).Nodup) :
    Gateway.lookupPending (Gateway.erasePending l id) id = none := by
  induction l with
  | nil => simp [Gateway.erasePending, Gateway.lookupPending]
  | cons x rest ih =>
    simp only [List.map_cons, List.nodup_cons] at hnd
    by_cases hx : x.1 = id
    · rw [Gateway.erasePending]
      simp only [hx, if_true]
      rw [gw_lookupPending_none_iff]
      intro e he heq
      have hm : e.1 ∈ List.map Prod.fst rest := List.mem_map.mpr ⟨e, he, rfl⟩
      rw [heq, ← hx] at hm
      exact hnd.1 hm
    · rw [Gateway.erasePending]
      simp only [hx, if_false]
      rw [Gateway.lookupPending]
      simp [hx, ih hnd.2]

theorem gw_mem_closeRejects (l : List (String × Nat)) (e : String × Nat)
    (he : e ∈ l) :
    Gateway.Effect.clearTimeout e.2 ∈ Gateway.closeRejects l
    ∧ Gateway.Effect.rejectReq e.1 "WebSocket disconnected" ∈ Gateway.closeRejects l := by
  induction l with
  | nil => simp at he
  | cons x rest ih =>
    rcases List.mem_cons.mp he with h | h
    · subst h
      simp [Gateway.closeRejects]
    · have hrec := ih h
      simp only [Gateway.closeRejects]
      exact ⟨List.mem_cons_of_mem _ (List.mem_cons_of_mem _ hrec.1),
             List.mem_cons_of_mem _ (List.mem_cons_of_mem _ hrec.2)⟩

/-! ## Claim theorems -/

/-- C10: the `WsProvider` `recentEvents` buffer is bounded — after every
received event it is the new event prepended to the first 99 previous
events, hence at most 100 long, newest first, dropping only the oldest
on overflow (and dropping nothing while under 100). -/
theorem recentEvents_bounded (evt : Nat) (prev : List Nat) :
    WsContext.recentEventsNext evt prev = evt :: prev.take 99
    ∧ (WsContext.recentEventsNext evt prev).length ≤ 100
    ∧ (prev.length ≤ 99 → WsContext.recentEventsNext evt prev = evt :: prev) := by
  refine ⟨rfl, ?_, ?_⟩
  · simp [WsContext.recentEventsNext]
  · intro h
    simp [WsContext.recentEventsNext, List.take_of_length_le (by omega : prev.length ≤ 99)]

/-- Witness for C10 at a concrete buffer. -/
theorem recentEvents_bounded_witness :
    WsContext.recentEventsNext 7 [1, 2, 3] = [7, 1, 2, 3] :=
  (recentEvents_bounded 7 [1, 2, 3]).2.2 (by decide)

/-- C7: a malformed or field-deficient frame is turned into a typed
error frame by the (spec-modelled) server codec rather than thrown, and
the client `onmessage` handler is a total function that does nothing on
unparseable input — no exception crosses the transport boundary. -/
theorem decode_error_typed (s : Gateway.GatewayWS) (r : Server.RawMsg) :
    Gateway.onMessageRaw s none = (s, [])
    ∧ (Server.decode r = none →
        Server.decodeOrError r
          = Except.error (Gateway.Frame.error none "decode_error" "malformed frame"))
    ∧ (r.type = some "req" → r.id = none → Server.decode r = none) := by
  refine ⟨rfl, ?_, ?_⟩
  · intro h
    simp [Server.decodeOrError, h]
  · intro ht hi
    cases r with
    | mk ty no tok cn cv id me pa ik re co ms ev pl ts =>
      simp only at ht hi
      subst ht hi
      cases me <;> cases pa <;> rfl

/-- Witness for C7: a `req` frame missing its required `id` field. -/
theorem decode_error_typed_witness :
    Server.decodeOrError
        ⟨some "req", none, none, none, none, none, some "tasks.list", some "x",
         none, none, none, none, none, none, none⟩
      = Except.error (Gateway.Frame.error none "decode_error" "malformed frame") :=
  (decode_error_typed ⟨[], 1000, 0, false, "disconnected", false, none⟩ _).2.1
    ((decode_error_typed ⟨[], 1000, 0, false, "disconnected", false, none⟩ _).2.2 rfl rfl)

/-- C8: on a `connect.challenge` carrying a nonce, a client holding a
token replies with exactly one `connect` frame of shape
`(type connect, token, nonce, client (name, version))` echoing the
received nonce and sends no `req`; a client without a token closes the
transport instead. -/
theorem challenge_reply (s : Gateway.GatewayWS) (nonce tok : String) :
    (s.token = some tok →
      Gateway.handleMessage s (.challenge nonce)
        = (s, [.sendFrame (.connect tok nonce ⟨"multibot-admin", "0.1.0"⟩)]))
    ∧ (s.token = none →
      Gateway.handleMessage s (.challenge nonce) = (s, [.closeSocket]))
    ∧ ∀ i m p k, Gateway.Effect.sendFrame (Gateway.Frame.req i m p k)
        ∉ (Gateway.handleMessage s (.challenge nonce)).2 := by
  refine ⟨?_, ?_, ?_⟩
  · intro h
    simp [Gateway.handleMessage, h]
  · intro h
    simp [Gateway.handleMessage, h]
  · intro i m p k
    cases h : s.token <;> simp [Gateway.handleMessage, h]

/-- Witness for C8 at a concrete state holding a token. -/
theorem challenge_reply_witness :
    Gateway.handleMessage
        ⟨[], 1000, 0, false, "connecting", true, some "jwt-1"⟩
        (.challenge "n-42")
      = (⟨[], 1000, 0, false, "connecting", true, some "jwt-1"⟩,
         [.sendFrame (.connect "jwt-1" "n-42" ⟨"multibot-admin", "0.1.0"⟩)]) :=
  (challenge_reply ⟨[], 1000, 0, false, "connecting", true, some "jwt-1"⟩
    "n-42" "jwt-1").1 rfl

/-- C1: a `req` on a connection that has not completed the connect
handshake is answered by the (spec-modelled) gate with an
`unauthenticated` error frame and is never dispatched; on the client,
`GatewayWS.request` on a socket that is not open rejects the promise
and sends no frame. -/
theorem unauth_req_gate (st : Server.ConnLifecycle) (id method params : String)
    (s : Gateway.GatewayWS) (m p : String) (idem : Option String)
    (tm : Option Nat) (tid now : Nat) :
    (st ≠ Server.ConnLifecycle.authenticated →
      Server.gateReq st id method params
          = [.reply (.error (some id) "unauthenticated" "connection not authenticated")]
      ∧ ∀ i2 m2 p2,
          Server.ServerAction.dispatch i2 m2 p2 ∉ Server.gateReq st id method params)
    ∧ (s.wsOpen = false →
      Gateway.request s m p idem tm tid now
          = (s, [.rejectNew "WebSocket not connected"])
      ∧ ∀ f, Gateway.Effect.sendFrame f ∉ (Gateway.request s m p idem tm tid now).2) := by
  constructor
  · intro h
    constructor
    · simp [Server.gateReq, h]
    · intro i2 m2 p2
      simp [Server.gateReq, h]
  · intro h
    constructor
    · simp [Gateway.request, h]
    · intro f
      simp [Gateway.request, h]

/-- Witness for C1: a challenged (pre-handshake) connection and a
client whose socket is not open. -/
theorem unauth_req_gate_witness :
    Server.gateReq Server.ConnLifecycle.challenged "r1" "tasks.list" "x"
        = [.reply (.error (some "r1") "unauthenticated" "connection not authenticated")]
    ∧ Gateway.request ⟨[], 1000, 0, false, "reconnecting", false, some "jwt"⟩
          "tasks.list" "x" none none 5 99
        = (⟨[], 1000, 0, false, "reconnecting", false, some "jwt"⟩,
           [.rejectNew "WebSocket not connected"]) :=
  ⟨((unauth_req_gate Server.ConnLifecycle.challenged "r1" "tasks.list" "x"
      ⟨[], 1000, 0, false, "reconnecting", false, some "jwt"⟩ "tasks.list" "x"
      none none 5 99).1 (by simp)).1,
   ((unauth_req_gate Server.ConnLifecycle.challenged "r1" "tasks.list" "x"
      ⟨[], 1000, 0, false, "reconnecting", false, some "jwt"⟩ "tasks.list" "x"
      none none 5 99).2 rfl).1⟩

/-- C9: a `res` (or `error`) frame settles exactly the pending request
whose id it echoes — that entry alone is removed, only its timer is
cleared, every entry with another id survives, nothing is added, and
after the removal the id is gone from the (duplicate-free) map; a `res`
whose id matches no pending request leaves the state untouched with no
effect. -/
theorem res_settles_exactly (s : Gateway.GatewayWS)
    (id result code message : String) (tid : Nat) :
    (Gateway.lookupPending s.pending id = some tid →
      Gateway.handleMessage s (.res id result)
          = ({ s with pending := Gateway.erasePending s.pending id },
             [.clearTimeout tid, .resolveReq id result])
      ∧ Gateway.handleMessage s (.error (some id) code message)
          = ({ s with pending := Gateway.erasePending s.pending id },
             [.clearTimeout tid, .rejectReq id ("[" ++ code ++ "] " ++ message)])
      ∧ (∀ e ∈ s.pending, e.1 ≠ id → e ∈ Gateway.erasePending s.pending id)
      ∧ (∀ e ∈ Gateway.erasePending s.pending id, e ∈ s.pending)
      ∧ ((s.pending.map Prod.fst).Nodup →
          Gateway.lookupPending (Gateway.erasePending s.pending id) id = none))
    ∧ (Gateway.lookupPending s.pending id = none →
        Gateway.handleMessage s (.res id result) = (s, [])) := by
  constructor
  · intro h
    refine ⟨?_, ?_, ?_, ?_, ?_⟩
    · simp [Gateway.handleMessage, h]
    · simp [Gateway.handleMessage, h]
    · intro e he hne
      exact gw_mem_erasePending_of_ne s.pending id e he hne
    · intro e he
      exact gw_erasePending_subset s.pending id e he
    · intro hnd
      exact gw_erase_keeps_no_key s.pending id hnd
  · intro h
    simp [Gateway.handleMessage, h]

/-- Witness for C9: a map with two pending requests, the `res` settling
the first. -/
theorem res_settles_exactly_witness :
    Gateway.handleMessage
        ⟨[("a", 3), ("b", 4)], 1000, 2, false, "connected", true, some "jwt"⟩
        (.res "a" "ok")
      = (⟨[("b", 4)], 1000, 2, false, "connected", true, some "jwt"⟩,
         [.clearTimeout 3, .resolveReq "a" "ok"]) :=
  ((res_settles_exactly
      ⟨[("a", 3), ("b", 4)], 1000, 2, false, "connected", true, some "jwt"⟩
      "a" "ok" "c" "m" 3).1 rfl).1

/-- C5: no in-flight request hangs — `onclose` empties the pending map,
clearing each timer and rejecting each request with the disconnected
fault; every dispatched request arms a timeout of `timeoutMs` defaulting
to 15000 ms; and the timeout firing removes the request from the map
and rejects it. -/
theorem pending_always_settles (s : Gateway.GatewayWS) (m p : String)
    (idem : Option String) (tm : Option Nat) (tid now : Nat)
    (id meth : String) (t : Nat) :
    ((Gateway.onClose s).1.pending = []
      ∧ ∀ e ∈ s.pending,
          Gateway.Effect.clearTimeout e.2 ∈ (Gateway.onClose s).2
          ∧ Gateway.Effect.rejectReq e.1 "WebSocket disconnected"
              ∈ (Gateway.onClose s).2)
    ∧ (s.wsOpen = true →
        (Gateway.request s m p idem tm tid now).1.pending
            = s.pending ++ [(Gateway.nextReqId s.reqCounter now, tid)]
        ∧ Gateway.Effect.armTimeout tid (tm.getD 15000)
            ∈ (Gateway.request s m p idem tm tid now).2)
    ∧ (tm = none → s.wsOpen = true →
        Gateway.Effect.armTimeout tid 15000
            ∈ (Gateway.request s m p idem tm tid now).2)
    ∧ ((Gateway.fireTimeout s id meth t).1.pending
          = Gateway.erasePending s.pending id
        ∧ Gateway.Effect.rejectReq id
              ("Request " ++ meth ++ " timed out after " ++ toString t ++ "ms")
            ∈ (Gateway.fireTimeout s id meth t).2
        ∧ ((s.pending.map Prod.fst).Nodup →
            Gateway.lookupPending
                (Gateway.erasePending s.pending id) id = none)) := by
  refine ⟨⟨?_, ?_⟩, ?_, ?_, ?_, ?_, ?_⟩
  · cases h : s.stopped <;> simp [Gateway.onClose, h]
  · intro e he
    have hmem := gw_mem_closeRejects s.pending e he
    cases h : s.stopped <;>
      simp [Gateway.onClose, h] <;>
      exact ⟨hmem.1, hmem.2⟩
  · intro h
    constructor
    · simp [Gateway.request, h]
    · simp [Gateway.request, h]
  · intro htm h
    subst htm
    simp [Gateway.request, h]
  · rfl
  · simp [Gateway.fireTimeout]
  · intro hnd
    exact gw_erase_keeps_no_key s.pending id hnd

/-- Witness for C5: a connection with two in-flight requests closing,
a request dispatched with the default timeout, and a timeout firing. -/
theorem pending_always_settles_witness :
    (Gateway.onClose
        ⟨[("a", 3), ("b", 4)], 2000, 2, false, "connected", true, some "jwt"⟩
      ).1.pending = []
    ∧ Gateway.Effect.armTimeout 9 15000
        ∈ (Gateway.request
            ⟨[], 1000, 0, false, "connected", true, some "jwt"⟩
            "tasks.list" "x" none none 9 77).2 :=
  ⟨(pending_always_settles
      ⟨[("a", 3), ("b", 4)], 2000, 2, false, "connected", true, some "jwt"⟩
      "tasks.list" "x" none none 9 77 "a" "tasks.list" 15000).1.1,
   (pending_always_settles
      ⟨[], 1000, 0, false, "connected", true, some "jwt"⟩
      "tasks.list" "x" none none 9 77 "a" "tasks.list" 15000).2.2.1 rfl rfl⟩

/-! ## Reconnect backoff helper -/

theorem gw_iterClose_delay (k : Nat) :
    ∀ s : Gateway.GatewayWS, s.stopped = false →
      s.reconnectDelay ≤ Gateway.RECONNECT_MAX_MS →
      (Gateway.iterClose k s).reconnectDelay
          = min (s.reconnectDelay * Gateway.RECONNECT_FACTOR ^ k)
              Gateway.RECONNECT_MAX_MS
      ∧ (Gateway.iterClose k s).stopped = false := by
  induction k with
  | zero =>
    intro s h1 h2
    constructor
    · simp only [Gateway.iterClose, pow_zero, Nat.mul_one]
      exact (Nat.min_eq_left h2).symm
    · exact h1
  | succ n ih =>
    intro s h1 h2
    have hs1 : (Gateway.onClose s).1.stopped = false := by
      simp [Gateway.onClose, h1]
    have hd1 : (Gateway.onClose s).1.reconnectDelay
        = min (s.reconnectDelay * Gateway.RECONNECT_FACTOR)
            Gateway.RECONNECT_MAX_MS := by
      simp [Gateway.onClose, h1]
    have hb1 : (Gateway.onClose s).1.reconnectDelay ≤ Gateway.RECONNECT_MAX_MS := by
      rw [hd1]; exact min_le_right _ _
    obtain ⟨ihd, ihs⟩ := ih (Gateway.onClose s).1 hs1 hb1
    have hstep : Gateway.iterClose (n + 1) s
        = Gateway.iterClose n (Gateway.onClose s).1 := rfl
    refine ⟨?_, hstep ▸ ihs⟩
    rw [hstep, ihd, hd1]
    rcases le_total (s.reconnectDelay * Gateway.RECONNECT_FACTOR)
        Gateway.RECONNECT_MAX_MS with hle | hge
    · rw [Nat.min_eq_left hle, pow_succ]
      congr 1
      ring
    · rw [Nat.min_eq_right hge]
      have hone : 1 ≤ Gateway.RECONNECT_FACTOR ^ n :=
        Nat.one_le_pow n _ (by norm_num [Gateway.RECONNECT_FACTOR])
      have hmax : Gateway.RECONNECT_MAX_MS
          ≤ Gateway.RECONNECT_MAX_MS * Gateway.RECONNECT_FACTOR ^ n := by
        calc Gateway.RECONNECT_MAX_MS = Gateway.RECONNECT_MAX_MS * 1 := by ring
          _ ≤ Gateway.RECONNECT_MAX_MS * Gateway.RECONNECT_FACTOR ^ n :=
              Nat.mul_le_mul_left _ hone
      have hnew : Gateway.RECONNECT_MAX_MS
          ≤ s.reconnectDelay * Gateway.RECONNECT_FACTOR ^ (n + 1) := by
        calc Gateway.RECONNECT_MAX_MS
            ≤ s.reconnectDelay * Gateway.RECONNECT_FACTOR := hge
          _ = s.reconnectDelay * Gateway.RECONNECT_FACTOR * 1 := by ring
          _ ≤ s.reconnectDelay * Gateway.RECONNECT_FACTOR
                * Gateway.RECONNECT_FACTOR ^ n :=
              Nat.mul_le_mul_left _ hone
          _ = s.reconnectDelay * Gateway.RECONNECT_FACTOR ^ (n + 1) := by
              rw [pow_succ]; ring
      rw [Nat.min_eq_right hmax, Nat.min_eq_right hnew]

/-- C6: across `k + 1` consecutive connection losses starting from the
base delay, the delay scheduled for the `k + 1`-st reconnect is
`min (1000 * 2 ^ k) 30000` — exponential growth from the base, capped —
and the stored delay doubles likewise; the transport merely opening
runs no client code and leaves the delay unchanged, every frame other
than a `presence.connected` event (the handshake-success signal) leaves
the delay unchanged, and receipt of `presence.connected` alone resets
it to the base. -/
theorem backoff_reset_on_handshake (s : Gateway.GatewayWS) (k : Nat)
    (msg : Gateway.Frame) (p : String) (t : Nat) :
    (s.stopped = false → s.reconnectDelay = Gateway.RECONNECT_BASE_MS →
      (Gateway.iterClose k s).reconnectDelay
          = min (Gateway.RECONNECT_BASE_MS * Gateway.RECONNECT_FACTOR ^ k)
              Gateway.RECONNECT_MAX_MS
      ∧ Gateway.Effect.scheduleReconnect
            (min (Gateway.RECONNECT_BASE_MS * Gateway.RECONNECT_FACTOR ^ k)
              Gateway.RECONNECT_MAX_MS)
          ∈ (Gateway.onClose (Gateway.iterClose k s)).2)
    ∧ (Gateway.transportOpen s).reconnectDelay = s.reconnectDelay
    ∧ ((∀ pl ts, msg ≠ .event "presence.connected" pl ts) →
        (Gateway.handleMessage s msg).1.reconnectDelay = s.reconnectDelay)
    ∧ (Gateway.handleMessage s (.event "presence.connected" p t)).1.reconnectDelay
        = Gateway.RECONNECT_BASE_MS := by
  refine ⟨?_, rfl, ?_, ?_⟩
  · intro h1 h2
    have hbase : s.reconnectDelay ≤ Gateway.RECONNECT_MAX_MS := by
      rw [h2]; norm_num [Gateway.RECONNECT_BASE_MS, Gateway.RECONNECT_MAX_MS]
    obtain ⟨hd, hs⟩ := gw_iterClose_delay k s h1 hbase
    rw [h2] at hd
    refine ⟨hd, ?_⟩
    simp [Gateway.onClose, hs, hd]
  · intro h
    cases msg with
    | challenge n => cases ht : s.token <;> simp [Gateway.handleMessage, ht]
    | connect tok n c => simp [Gateway.handleMessage]
    | req i m pr ik => simp [Gateway.handleMessage]
    | res i r =>
      cases hl : Gateway.lookupPending s.pending i <;>
        simp [Gateway.handleMessage, hl]
    | error mi c m =>
      rcases hb : mi.bind
          (fun i => (Gateway.lookupPending s.pending i).map (fun tt => (i, tt)))
        with _ | ⟨i, tid⟩
      · simp only [Gateway.handleMessage, hb]
        split <;> simp
      · simp [Gateway.handleMessage, hb]
    | event name pl ts =>
      have hne : name ≠ "presence.connected" := by
        intro heq
        exact (h pl ts) (by rw [heq])
      simp [Gateway.handleMessage, hne]
  · simp [Gateway.handleMessage]

/-- Witness for C6: three consecutive losses from the base delay
schedule the third reconnect after 4000 ms, and a heartbeat event does
not touch the delay. -/
theorem backoff_reset_on_handshake_witness :
    (Gateway.iterClose 2
        ⟨[], 1000, 0, false, "connected", true, some "jwt"⟩).reconnectDelay
      = 4000
    ∧ (Gateway.handleMessage
        ⟨[], 8000, 0, false, "reconnecting", true, some "jwt"⟩
        (.event "heartbeat" "x" 5)).1.reconnectDelay = 8000 :=
  ⟨by
    have h := (backoff_reset_on_handshake
      ⟨[], 1000, 0, false, "connected", true, some "jwt"⟩ 2
      (.event "heartbeat" "x" 5) "x" 5).1 rfl rfl
    rw [h.1]
    norm_num [Gateway.RECONNECT_BASE_MS, Gateway.RECONNECT_FACTOR,
      Gateway.RECONNECT_MAX_MS],
   (backoff_reset_on_handshake
      ⟨[], 8000, 0, false, "reconnecting", true, some "jwt"⟩ 2
      (.event "heartbeat" "x" 5) "x" 5).2.2.1 (by intro pl ts h; simp at h)⟩

/-! ## Resolver order lemmas -/

theorem rb_beats_irrefl (a : Resolver.Binding) : Resolver.beats a a = false := by
  simp only [Resolver.beats, decide_eq_false_iff_not]
  omega

theorem rb_beats_trans {a b c : Resolver.Binding}
    (h1 : Resolver.beats a b = true) (h2 : Resolver.beats b c = true) :
    Resolver.beats a c = true := by
  simp only [Resolver.beats, decide_eq_true_eq] at h1 h2 ⊢
  omega

theorem rb_nbeats_trans {a b c : Resolver.Binding}
    (h1 : Resolver.beats a b = false) (h2 : Resolver.beats b c = false) :
    Resolver.beats a c = false := by
  simp only [Resolver.beats, decide_eq_false_iff_not] at h1 h2 ⊢
  omega

theorem rb_pick_mem :
    ∀ (l : List Resolver.Binding) (acc : Option Resolver.Binding)
      (r : Resolver.Binding),
      Resolver.pick acc l = some r → acc = some r ∨ r ∈ l := by
  intro l
  induction l with
  | nil =>
    intro acc r h
    rw [show Resolver.pick acc [] = acc from by cases acc <;> rfl] at h
    exact Or.inl h
  | cons b rest ih =>
    intro acc r h
    cases acc with
    | none =>
      rcases ih (some b) r h with h1 | h1
      · injection h1 with h1
        exact Or.inr (h1 ▸ List.mem_cons_self _ _)
      · exact Or.inr (List.mem_cons_of_mem _ h1)
    | some a =>
      rcases ih (some (if Resolver.beats b a then b else a)) r h with h1 | h1
      · by_cases hb : Resolver.beats b a = true
        · rw [if_pos hb] at h1
          injection h1 with h1
          exact Or.inr (h1 ▸ List.mem_cons_self _ _)
        · rw [if_neg hb] at h1
          exact Or.inl h1
      · exact Or.inr (List.mem_cons_of_mem _ h1)

theorem rb_pick_unbeaten :
    ∀ (l : List Resolver.Binding) (acc : Option Resolver.Binding)
      (r : Resolver.Binding),
      Resolver.pick acc l = some r →
      (∀ c ∈ l, Resolver.beats c r = false)
      ∧ (∀ a, acc = some a → Resolver.beats a r = false) := by
  intro l
  induction l with
  | nil =>
    intro acc r h
    constructor
    · intro c hc
      simp at hc
    · intro a ha
      rw [show Resolver.pick acc [] = acc from by cases acc <;> rfl, ha] at h
      injection h with h'
      exact h' ▸ rb_beats_irrefl a
  | cons b rest ih =>
    intro acc r h
    cases acc with
    | none =>
      have hres := ih (some b) r h
      constructor
      · intro c hc
        rcases List.mem_cons.mp hc with h1 | h1
        · exact h1 ▸ hres.2 b rfl
        · exact hres.1 c h1
      · intro a ha
        simp at ha
    | some a =>
      have hres := ih (some (if Resolver.beats b a then b else a)) r h
      have hb'r : Resolver.beats (if Resolver.beats b a then b else a) r = false :=
        hres.2 _ rfl
      have har : Resolver.beats a r = false := by
        cases hh : Resolver.beats a r
        · rfl
        · exfalso
          by_cases hb : Resolver.beats b a = true
          · rw [if_pos hb] at hb'r
            have := rb_beats_trans hb hh
            rw [this] at hb'r
            exact Bool.noConfusion hb'r
          · rw [if_neg hb] at hb'r
            rw [hh] at hb'r
            exact Bool.noConfusion hb'r
      have hbr : Resolver.beats b r = false := by
        cases hh : Resolver.beats b r
        · rfl
        · exfalso
          by_cases hb : Resolver.beats b a = true
          · rw [if_pos hb] at hb'r
            rw [hh] at hb'r
            exact Bool.noConfusion hb'r
          · have hbf : Resolver.beats b a = false := by
              cases hbb : Resolver.beats b a
              · rfl
              · exact absurd hbb hb
            rw [if_neg hb] at hb'r
            have := rb_nbeats_trans hbf hb'r
            rw [hh] at this
            exact Bool.noConfusion this
      constructor
      · intro c hc
        rcases List.mem_cons.mp hc with h1 | h1
        · exact h1 ▸ hbr
        · exact hres.1 c h1
      · intro x hx
        injection hx with hx
        exact hx ▸ har

theorem rb_pick_isSome :
    ∀ (l : List Resolver.Binding) (acc : Option Resolver.Binding),
      (acc.isSome ∨ l ≠ []) → (Resolver.pick acc l).isSome := by
  intro l
  induction l with
  | nil =>
    intro acc h
    rw [show Resolver.pick acc [] = acc from by cases acc <;> rfl]
    rcases h with h | h
    · exact h
    · exact absurd rfl h
  | cons b rest ih =>
    intro acc h
    cases acc with
    | none => exact ih (some b) (Or.inl rfl)
    | some a => exact ih (some (if Resolver.beats b a then b else a)) (Or.inl rfl)

/-- C2: the (spec-modelled) resolver picks among the active bindings
matching the query a binding that no other match beats under the order
"higher specificity score, then higher priority, then earlier
created_at", and it returns a result exactly when some binding matches.
`resolve` is a pure Lean function of `(cs, q)`, so repeated calls with
the same inputs return the same result by construction. -/
theorem resolver_correct (cs : List Resolver.Binding) (q : Resolver.Query)
    (r : Resolver.Binding) :
    (Resolver.resolve cs q = some r →
      r ∈ cs ∧ Resolver.matchesB q r = true
      ∧ ∀ c ∈ cs, Resolver.matchesB q c = true → Resolver.beats c r = false)
    ∧ ((∃ b ∈ cs, Resolver.matchesB q b = true) → (Resolver.resolve cs q).isSome)
    ∧ ((∀ b ∈ cs, Resolver.matchesB q b = false) → Resolver.resolve cs q = none) := by
  refine ⟨?_, ?_, ?_⟩
  · intro h
    rcases rb_pick_mem _ none r h with h1 | h1
    · exact absurd h1 (by simp)
    · have hf := List.mem_filter.mp h1
      have hub := rb_pick_unbeaten _ none r h
      refine ⟨hf.1, hf.2, ?_⟩
      intro c hc hmc
      exact hub.1 c (List.mem_filter.mpr ⟨hc, hmc⟩)
  · rintro ⟨b, hb, hmb⟩
    apply rb_pick_isSome
    right
    intro hnil
    have hbm : b ∈ cs.filter (Resolver.matchesB q) := List.mem_filter.mpr ⟨hb, hmb⟩
    rw [hnil] at hbm
    simp at hbm
  · intro h
    have hnil : cs.filter (Resolver.matchesB q) = [] := by
      rw [List.filter_eq_nil_iff]
      intro b hb
      simp [h b hb]
    rw [Resolver.resolve, hnil]
    rfl

/-- Witness for C2: the end-to-end scenario of spec §8(a) — the
peer-specific binding (score 4) wins over the wildcard binding despite
its lower priority. -/
theorem resolver_correct_witness :
    (⟨"a2", none, "telegram", none, some "123", 50, true, 2⟩ : Resolver.Binding)
        ∈ [(⟨"a1", none, "telegram", none, none, 100, true, 1⟩ : Resolver.Binding),
           ⟨"a2", none, "telegram", none, some "123", 50, true, 2⟩]
    ∧ Resolver.matchesB ⟨"telegram", none, some "123", none⟩
        ⟨"a2", none, "telegram", none, some "123", 50, true, 2⟩ = true
    ∧ ∀ c ∈ [(⟨"a1", none, "telegram", none, none, 100, true, 1⟩ : Resolver.Binding),
             ⟨"a2", none, "telegram", none, some "123", 50, true, 2⟩],
        Resolver.matchesB ⟨"telegram", none, some "123", none⟩ c = true →
        Resolver.beats c ⟨"a2", none, "telegram", none, some "123", 50, true, 2⟩
          = false :=
  (resolver_correct
    [⟨"a1", none, "telegram", none, none, 100, true, 1⟩,
     ⟨"a2", none, "telegram", none, some "123", 50, true, 2⟩]
    ⟨"telegram", none, some "123", none⟩
    ⟨"a2", none, "telegram", none, some "123", 50, true, 2⟩).1 (by decide)

/-! ## Idempotency store lemmas -/

theorem id_findRecord_none_iff (store : List Idem.IdemRecord) (key : String) :
    Idem.findRecord store key = none ↔ ∀ r ∈ store, r.key ≠ key := by
  induction store with
  | nil => simp [Idem.findRecord]
  | cons r rest ih =>
    by_cases h : r.key = key
    · simp [Idem.findRecord, h]
    · simp [Idem.findRecord, h, ih]

theorem id_complete_of_absent (store : List Idem.IdemRecord) (key res : String)
    (h : ∀ r ∈ store, r.key ≠ key) :
    Idem.complete store key res = store := by
  induction store with
  | nil => rfl
  | cons r rest ih =>
    have hr : r.key ≠ key := h r (List.mem_cons_self _ _)
    have hrest : ∀ x ∈ rest, x.key ≠ key :=
      fun x hx => h x (List.mem_cons_of_mem _ hx)
    simp [Idem.complete, hr] at ih ⊢
    exact ih hrest

theorem id_findRecord_append_of_none (store : List Idem.IdemRecord)
    (key : String) (x : Idem.IdemRecord)
    (h : Idem.findRecord store key = none) :
    Idem.findRecord (store ++ [x]) key
      = if x.key = key then some x else none := by
  induction store with
  | nil => rfl
  | cons r rest ih =>
    rw [Idem.findRecord] at h
    by_cases hr : r.key = key
    · rw [if_pos hr] at h
      exact Option.noConfusion h
    · rw [if_neg hr] at h
      simp only [List.cons_append, Idem.findRecord, if_neg hr]
      exact ih h

theorem id_process_fresh (store : List Idem.IdemRecord) (key m p : String)
    (handler : String → String → String)
    (h : Idem.findRecord store key = none) :
    Idem.processRequest store key m p handler
      = (.ok (handler m p),
         store ++ [⟨key, m, Idem.requestHash m p, .completed (handler m p)⟩],
         1) := by
  have habsent : ∀ r ∈ store, r.key ≠ key := (id_findRecord_none_iff store key).mp h
  have hcomp :
      Idem.complete (store ++ [⟨key, m, Idem.requestHash m p, .in_progress⟩])
          key (handler m p)
        = store ++ [⟨key, m, Idem.requestHash m p, .completed (handler m p)⟩] := by
    have h1 := id_complete_of_absent store key (handler m p) habsent
    rw [Idem.complete] at h1
    rw [Idem.complete, List.map_append, h1]
    simp
  simp only [Idem.processRequest, Idem.begin, h, hcomp]

/-- C3: for a fresh idempotency key, running the same
`(key, method, params)` request twice executes the handler exactly once
(once on the first call, zero times on the second) and replays the
stored result to the second caller unchanged; running the same key with
a different request hash yields `Conflict` on the second call with no
re-execution. -/
theorem idempotent_replay_conflict (store : List Idem.IdemRecord)
    (key m p m2 p2 : String) (handler : String → String → String)
    (hfresh : Idem.findRecord store key = none)
    (hdiff : Idem.requestHash m2 p2 ≠ Idem.requestHash m p) :
    ((Idem.processRequest store key m p handler).1 = .ok (handler m p)
      ∧ (Idem.processRequest store key m p handler).2.2 = 1)
    ∧ Idem.processRequest (Idem.processRequest store key m p handler).2.1
          key m p handler
        = (.ok (handler m p), (Idem.processRequest store key m p handler).2.1, 0)
    ∧ Idem.processRequest (Idem.processRequest store key m p handler).2.1
          key m2 p2 handler
        = (.conflict, (Idem.processRequest store key m p handler).2.1, 0) := by
  have hfirst := id_process_fresh store key m p handler hfresh
  have hfind2 :
      Idem.findRecord
          (store ++ [⟨key, m, Idem.requestHash m p, .completed (handler m p)⟩]) key
        = some ⟨key, m, Idem.requestHash m p, .completed (handler m p)⟩ := by
    rw [id_findRecord_append_of_none store key _ hfresh]
    simp
  refine ⟨⟨by rw [hfirst], by rw [hfirst]⟩, ?_, ?_⟩
  · rw [hfirst]
    simp [Idem.processRequest, Idem.begin, hfind2]
  · rw [hfirst]
    simp [Idem.processRequest, Idem.begin, hfind2, Ne.symm hdiff]

/-- Witness for C3: a concrete approve request replayed by key. -/
theorem idempotent_replay_conflict_witness :
    Idem.processRequest
        (Idem.processRequest [] "k1" "approve" "q7"
          (fun a b => a ++ ":" ++ b)).2.1
        "k1" "approve" "q7" (fun a b => a ++ ":" ++ b)
      = (.ok "approve:q7",
         (Idem.processRequest [] "k1" "approve" "q7"
           (fun a b => a ++ ":" ++ b)).2.1, 0) :=
  (idempotent_replay_conflict [] "k1" "approve" "q7" "approve" "q8"
    (fun a b => a ++ ":" ++ b) rfl (by decide)).2.1

/-- C4 counterexample: a request classified `critical` from a node
declaring only `exec` and `trusted` (so without the matching
`exec.critical` capability) whose command matches a supplied
auto-approval rule is auto-approved, not put in `pending_approval` —
the spec's auto-approval-rule downgrade (§4.4, "may downgrade a command
to auto-approved even at elevated risk, but only for nodes holding
`trusted`") escapes the capability condition the claim states. -/
theorem node_policy_counterexample :
    NodeExec.hasCap ["exec", "trusted"] "exec.critical" = false
    ∧ NodeExec.classifyOutcome NodeExec.RiskLevel.critical
        ["exec", "trusted"] true true
      ≠ NodeExec.ExecStatus.pending_approval := by
  constructor
  · rfl
  · decide

/-- C4 (amended): a request classified `critical` or `high` enters
`pending_approval` unless the node declares the matching capability
(`exec.critical`/`exec.high`) and also holds `trusted` or
`auto_approve`, or the node holds `trusted` and a supplied
auto-approval rule matches the command; a request classified `low` from
a node holding plain `exec` never requires approval. -/
theorem node_policy_amended (risk : NodeExec.RiskLevel) (caps : List String)
    (med rule : Bool) :
    ((risk = NodeExec.RiskLevel.critical ∨ risk = NodeExec.RiskLevel.high) →
      (NodeExec.classifyOutcome risk caps med rule
          = NodeExec.ExecStatus.pending_approval
        ↔ ¬ ((NodeExec.hasCap caps
                (if risk = NodeExec.RiskLevel.critical then "exec.critical"
                 else "exec.high") = true
              ∧ (NodeExec.hasCap caps "trusted" = true
                  ∨ NodeExec.hasCap caps "auto_approve" = true))
            ∨ (rule = true ∧ NodeExec.hasCap caps "trusted" = true))))
    ∧ (risk = NodeExec.RiskLevel.low → NodeExec.hasCap caps "exec" = true →
        NodeExec.requiresApproval risk caps med rule = false) := by
  constructor
  · intro hrisk
    rcases hrisk with h | h <;> subst h <;>
      cases ht : NodeExec.hasCap caps "trusted" <;>
      cases ha : NodeExec.hasCap caps "auto_approve" <;>
      cases hr : rule <;>
      simp [NodeExec.classifyOutcome, NodeExec.requiresApproval, ht, ha, hr]
  · intro h _
    subst h
    simp only [NodeExec.requiresApproval]
    split <;> rfl

/-- Witness for C4 (amended): spec §8 scenario (b) — a `high`-risk
command from a node with only `exec` lands in `pending_approval`. -/
theorem node_policy_amended_witness :
    NodeExec.classifyOutcome NodeExec.RiskLevel.high ["exec"] false false
      = NodeExec.ExecStatus.pending_approval :=
  ((node_policy_amended NodeExec.RiskLevel.high ["exec"] false false).1
    (Or.inr rfl)).mpr (by decide)
